import Mathlib

/-!
Verification of the schedule cache coordinator of the hellomri backend
(src/backend/app/services/schedule_cache.py).

Embedding conventions:
* Timestamps are natural numbers.  For the pure staleness/age functions the
  unit is seconds (matching `datetime` arithmetic at the granularity those
  functions compare, with truncated subtraction standing for the fact that
  `utcnow` is monotone).  For the interleaving model of `get_schedule` the
  unit is half-second ticks, the poll interval of `_wait_for_update`.
* Python strings are Lean `String`; Python truthiness of a string or of an
  optional argument is the `truthy` predicate below; `str.lower` is modelled
  for the ASCII range; `in` is substring search; `<=`/`>=` on strings is
  lexicographic comparison of code points, exactly as in CPython.
* Exceptions that the source catches locally are modelled by `Option`
  results: `_fetch_schedule` returns `none` when the page load times out or
  any exception is raised (both handlers return `None`), and `_save_to_file`
  swallows every write error, which the model expresses by taking a
  `writeOk` flag and never failing.
* `dict.get(k)` on the scraped records is an `Option` field; `dict.get(k, "")`
  is `Option.getD _ ""`.
-/

namespace ScheduleCache

/-! ### Data model

`Snapshot` is the dictionary built at the end of `_fetch_schedule`
(`timestamp`, `url`, `total_clinics`, `clinics`); a clinic dictionary may
lack any of its text keys, hence the `Option` fields.  Coordinates are kept
as the two captured digit strings of the `lat=`/`lng=` regex (the model
does not interpret them numerically). -/

structure DaySchedule where
  day : Option String
  date : Option String
  times : List String
deriving DecidableEq

structure Clinic where
  doctor_name : Option String
  procedure : Option String
  price : Option String
  clinic_name : Option String
  address : Option String
  coordinates : Option (String × String)
  schedule : List DaySchedule
deriving DecidableEq

structure Snapshot where
  timestamp : Nat
  url : String
  total_clinics : Nat
  clinics : List Clinic
deriving DecidableEq

/-- One element of the list returned by `search_slots`. -/
structure MatchedSlot where
  clinic_name : Option String
  doctor_name : Option String
  address : Option String
  price : Option String
  coordinates : Option (String × String)
  day : Option String
  date : Option String
  available_times : List String
deriving DecidableEq

/-! ### Python string primitives -/

/-- ASCII lower-casing of one character, as `str.lower` acts on the
characters appearing in this data. -/
def lowerChar (c : Char) : Char :=
  if 65 ≤ c.toNat ∧ c.toNat ≤ 90 then Char.ofNat (c.toNat + 32) else c

/-- Substring test on character lists: Python `needle in hay`. -/
def subChars (needle : List Char) : List Char → Bool
  | [] => needle.isEmpty
  | c :: rest => needle.isPrefixOf (c :: rest) || subChars needle rest

/-- Case-insensitive substring test: `needle.lower() in hay.lower()`. -/
def strInCI (needle hay : String) : Bool :=
  subChars (needle.data.map lowerChar) (hay.data.map lowerChar)

/-- Lexicographic comparison of character lists by code point, the order
CPython uses for `str` comparison. -/
def charsLe : List Char → List Char → Bool
  | [], _ => true
  | _ :: _, [] => false
  | a :: as, b :: bs => decide (a < b) || (decide (a = b) && charsLe as bs)

/-- Python `a <= b` on strings. -/
def strLe (a b : String) : Bool := charsLe a.data b.data

/-- Python truthiness of an optional string argument: `None` and `""` are
falsy, every other string is truthy. -/
def truthy : Option String → Bool
  | none => false
  | some s => !s.data.isEmpty

/-! ### Staleness and age (`is_stale`, `_get_age_minutes`) -/

/-- `cache_duration = timedelta(minutes=15)`, in seconds. -/
def cache_duration : Nat := 15 * 60

/-- The `is_stale` property: true when `_last_update` is `None` or
`utcnow() - _last_update > cache_duration`.  Pure function of the stored
stamp, the current time and the ttl. -/
def is_stale (lastUpdate : Option Nat) (now ttl : Nat) : Bool :=
  match lastUpdate with
  | none => true
  | some t => decide (now - t > ttl)

/-- `_get_age_minutes`: `9999` when `_last_update is None`, otherwise the
elapsed seconds integer-divided by 60 (`int(total_seconds() / 60)`). -/
def get_age_minutes (lastUpdate : Option Nat) (now : Nat) : Nat :=
  match lastUpdate with
  | none => 9999
  | some t => (now - t) / 60

/-! ### Query engine (`search_slots`) -/

/-- The time-range filter of `search_slots`: applied only when `time_from`
or `time_to` is truthy; inside it, a falsy bound is skipped
(`not time_from or t >= time_from`, `not time_to or t <= time_to`). -/
def filteredTimes (time_from time_to : Option String) (times : List String) :
    List String :=
  if truthy time_from || truthy time_to then
    times.filter fun t =>
      (!truthy time_from || strLe (time_from.getD "") t) &&
      (!truthy time_to || strLe t (time_to.getD ""))
  else times

/-- The record appended for a matching (clinic, day) pair when the filtered
times are nonempty. -/
def dayRow (clinic : Clinic) (ds : DaySchedule) (times : List String) :
    List MatchedSlot :=
  if times.isEmpty then []
  else [⟨clinic.clinic_name, clinic.doctor_name, clinic.address,
         clinic.price, clinic.coordinates, ds.day, ds.date, times⟩]

/-- `search_slots`, line for line from the source: iterate clinics in order;
skip a clinic when `clinic_name` is truthy and not a case-insensitive
substring of the clinic name; skip a day when `day` is truthy and a
substring of neither the day label nor the date label; filter the times;
emit a record only when the remaining times list is nonempty. -/
def search_slots (data : Option Snapshot)
    (day time_from time_to clinic_name : Option String) : List MatchedSlot :=
  match data with
  | none => []
  | some snap =>
    snap.clinics.flatMap fun clinic =>
      if truthy clinic_name &&
          !strInCI (clinic_name.getD "") (clinic.clinic_name.getD "") then
        []
      else
        clinic.schedule.flatMap fun ds =>
          if truthy day && !strInCI (day.getD "") (ds.day.getD "")
              && !strInCI (day.getD "") (ds.date.getD "") then
            []
          else dayRow clinic ds (filteredTimes time_from time_to ds.times)

/-- Normalisation of an optional filter: an empty string behaves like an
absent filter (Python truthiness). -/
def normArg (o : Option String) : Option String :=
  match o with
  | none => none
  | some s => if s.data.isEmpty then none else some s

/-- The time filter as the spec words it: keep `t` with (`timeFrom` absent
or `t >= timeFrom`) and (`timeTo` absent or `t <= timeTo`), lexicographic. -/
def specTimes (time_from time_to : Option String) (times : List String) :
    List String :=
  times.filter fun t =>
    (match time_from with
     | none => true
     | some f => strLe f t) &&
    (match time_to with
     | none => true
     | some u => strLe t u)

/-- The query algorithm as the spec section 4.4 words it, over
present-or-absent filters, written independently of the source function to
compare the two: a clinic is kept unless `clinicName` is given and is not a
case-insensitive substring of the clinic name; a day is kept unless `day`
is given and is a substring of neither label; times are filtered by the two
lexicographic bounds; a record is emitted when the filtered times are
nonempty, in snapshot order. -/
def searchSpec (data : Option Snapshot)
    (day time_from time_to clinic_name : Option String) : List MatchedSlot :=
  match data with
  | none => []
  | some snap =>
    snap.clinics.flatMap fun clinic =>
      if (match clinic_name with
          | none => false
          | some s => !strInCI s (clinic.clinic_name.getD "")) then
        []
      else
        clinic.schedule.flatMap fun ds =>
          if (match day with
              | none => false
              | some s => !(strInCI s (ds.day.getD "")
                            || strInCI s (ds.date.getD ""))) then
            []
          else dayRow clinic ds (specTimes time_from time_to ds.times)

/-! ### Snapshot construction (`_fetch_schedule`)

The scraping itself (browser, selectors) is the external part; what the
coordinator owns is how the scraped texts are assembled into a snapshot.
A raw day block carries the optional `(day, date)` header pair (present
only when the header had at least two divs) and the raw button texts; a
raw clinic card carries the optional text fields and its day blocks.  A
card whose parsing raised is `none` in the page result (`continue` skips
it); a page result of `none` is a load timeout or any other raised error,
both of which `_fetch_schedule` catches and turns into `None`. -/

structure RawDay where
  header : Option (String × String)
  rawTimes : List String
deriving DecidableEq

structure RawClinic where
  doctor_name : Option String
  procedure : Option String
  price : Option String
  clinic_name : Option String
  address : Option String
  coordinates : Option (String × String)
  rawDays : List RawDay
deriving DecidableEq

/-- Python `str.strip()`: drop whitespace from both ends. -/
def pyStrip (s : String) : String :=
  String.mk (((s.data.dropWhile Char.isWhitespace).reverse.dropWhile
    Char.isWhitespace).reverse)

/-- One `day_block`: the times keep only buttons with truthy (nonempty) raw
text, stripped. -/
def buildDay (rd : RawDay) : DaySchedule :=
  { day := rd.header.map Prod.fst
    date := rd.header.map Prod.snd
    times := (rd.rawTimes.filter fun t => !t.data.isEmpty).map pyStrip }

/-- One clinic card: `if times: schedule.append(day_info)` keeps exactly the
days whose times list is nonempty. -/
def buildClinic (rc : RawClinic) : Clinic :=
  { doctor_name := rc.doctor_name
    procedure := rc.procedure
    price := rc.price
    clinic_name := rc.clinic_name
    address := rc.address
    coordinates := rc.coordinates
    schedule := (rc.rawDays.map buildDay).filter fun d => !d.times.isEmpty }

def sourceUrl : String := "https://doq.kz/doctors/almaty/mrt-gipofiza"

/-- `_fetch_schedule`: `none` when the page failed to load or an exception
was raised (both handlers return `None`); otherwise the snapshot dictionary
with `total_clinics = len(all_clinics)`. -/
def fetch_schedule (now : Nat) (page : Option (List (Option RawClinic))) :
    Option Snapshot :=
  match page with
  | none => none
  | some cards =>
    let clinics := cards.filterMap fun card => card.map buildClinic
    some { timestamp := now, url := sourceUrl,
           total_clinics := clinics.length, clinics := clinics }

/-- Every day of every clinic of the snapshot has a nonempty times list. -/
def daysNonempty (snap : Snapshot) : Prop :=
  ∀ c ∈ snap.clinics, ∀ d ∈ c.schedule, d.times ≠ []

/-! ### Sequential refresh (`get_schedule` body, single caller)

State of the singleton between calls: `_data`, `_last_update`, and the
cache file contents.  `get_schedule` is modelled for one caller with no
refresh in flight (the `_is_updating` interleaving is the step model
below): the freshness check, the identical double check under the lock,
then the fetch; `if new_data:` tests dict truthiness, which is true for
every returned snapshot dictionary — including one with zero clinics —
and false only for `None`.  The third component counts fetcher
invocations. -/

structure CacheState where
  data : Option Snapshot
  lastUpdate : Option Nat
  file : Option Snapshot
deriving DecidableEq

/-- `_save_to_file`: writes `_data` to the file; every exception is caught
and logged, leaving the file as it was. -/
def save_to_file (writeOk : Bool) (data fileOld : Option Snapshot) :
    Option Snapshot :=
  if writeOk then data else fileOld

def get_schedule (st : CacheState) (now : Nat) (force : Bool)
    (fetchRes : Option Snapshot) (writeOk : Bool) :
    CacheState × Option Snapshot × Nat :=
  if !force && !is_stale st.lastUpdate now cache_duration && st.data.isSome then
    (st, st.data, 0)
  else if !force && !is_stale st.lastUpdate now cache_duration
      && st.data.isSome then
    (st, st.data, 0)
  else
    match fetchRes with
    | some nd =>
      ({ data := some nd, lastUpdate := some now,
         file := save_to_file writeOk (some nd) st.file }, some nd, 1)
    | none => (st, st.data, 1)

/-! ### Wait loop (`_wait_for_update`)

`upd k` is the value of `_is_updating` observed at the k-th check of the
loop; `k` counts completed `asyncio.sleep(0.5)` calls, so `k / 2` is the
`.seconds` component of the elapsed timedelta.  The loop checks
`_is_updating` first, then `elapsed.seconds > timeout`, then sleeps.  The
fuel `2 * timeout + 3` is never exhausted: the timeout branch fires at
`k = 2 * timeout + 2` at the latest, which the bound theorem makes
precise. -/

def waitGo (upd : Nat → Bool) (tmo : Nat) : Nat → Nat → Nat
  | 0, k => k
  | f + 1, k =>
    if upd k = false then k
    else if k / 2 > tmo then k
    else waitGo upd tmo f (k + 1)

/-- Number of completed polls after which `_wait_for_update` returns, for
the observation trace `upd` and timeout `tmo` (reference policy: 60). -/
def waitPolls (upd : Nat → Bool) (tmo : Nat) : Nat :=
  waitGo upd tmo (2 * tmo + 3) 0

/-! ### Interleaved `get_schedule` (asyncio step model)

Cooperative concurrency: between two suspension points a coroutine runs
atomically.  In `get_schedule` the suspension points are exactly the fetch
(`await self._fetch_schedule()`) and each `asyncio.sleep(0.5)` of
`_wait_for_update`: `asyncio.Lock.acquire` returns without yielding when
the lock is free, and it is free whenever `_is_updating` is false, because
`_is_updating` is set to true before the fetch suspension and reset in the
same atomic segment in which the lock is released (`finally` plus
`__aexit__` plus `return`, no `await` that suspends in between — awaiting
`_save_to_file` does not suspend as its body has no await).  So a task is
always in one of: `entry` (has not run yet), `fetching` (started the
fetch), `waiting startT wakeT` (inside the poll loop, sleeping until
`wakeT`), or `ret r` (returned `r`).  Time advances in half-second ticks
via the `tick` action; `run i` lets task `i` execute its next atomic
segment (a no-op when the task is finished, sleeping, or absent); running
a `fetching` task delivers the fetch result `fr`, so the scheduler chooses
the fetch duration.  `fetchCount` counts fetcher invocations; `timedOut`
records that some waiter took the timeout branch. -/

inductive TaskPC where
  | entry : Bool → TaskPC
  | fetching : TaskPC
  | waiting : Nat → Nat → TaskPC
  | ret : Option Snapshot → TaskPC
deriving DecidableEq

structure SysState where
  now : Nat
  data : Option Snapshot
  lastUpdate : Option Nat
  isUpdating : Bool
  timedOut : Bool
  fetchCount : Nat
  tasks : List TaskPC
deriving DecidableEq

inductive Action where
  | tick : Action
  | run : Nat → Action
deriving DecidableEq

/-- `cache_duration` in half-second ticks. -/
def ttlTicks : Nat := 2 * cache_duration

/-- `is_stale` over tick-valued timestamps. -/
def staleTicks (lastUpdate : Option Nat) (now : Nat) : Bool :=
  match lastUpdate with
  | none => true
  | some t => decide (now - t > ttlTicks)

def setTask (s : SysState) (i : Nat) (pc : TaskPC) : SysState :=
  { s with tasks := s.tasks.set i pc }

/-- The freshness test of `get_schedule` (and of the double check). -/
def freshHit (s : SysState) (force : Bool) : Bool :=
  !force && !staleTicks s.lastUpdate s.now && s.data.isSome

/-- One atomic segment of task `i` whose program counter is the last
argument. -/
def runTask (fr : Option Snapshot) (s : SysState) (i : Nat) : TaskPC → SysState
  | TaskPC.entry force =>
    if freshHit s force then setTask s i (TaskPC.ret s.data)
    else if s.isUpdating then setTask s i (TaskPC.waiting s.now (s.now + 1))
    else if freshHit s force then setTask s i (TaskPC.ret s.data)
    else { s with isUpdating := true, fetchCount := s.fetchCount + 1,
                  tasks := s.tasks.set i TaskPC.fetching }
  | TaskPC.fetching =>
    match fr with
    | some nd =>
      { s with data := some nd, lastUpdate := some s.now, isUpdating := false,
               tasks := s.tasks.set i (TaskPC.ret (some nd)) }
    | none =>
      { s with isUpdating := false, tasks := s.tasks.set i (TaskPC.ret s.data) }
  | TaskPC.waiting startT wakeT =>
    if s.now < wakeT then s
    else if !s.isUpdating then setTask s i (TaskPC.ret s.data)
    else if (s.now - startT) / 2 > 60 then
      { s with timedOut := true, tasks := s.tasks.set i (TaskPC.ret s.data) }
    else setTask s i (TaskPC.waiting startT (s.now + 1))
  | TaskPC.ret _ => s

def step (fr : Option Snapshot) (s : SysState) : Action → SysState
  | Action.tick => { s with now := s.now + 1 }
  | Action.run i =>
    match s.tasks[i]? with
    | none => s
    | some pc => runTask fr s i pc

def runActs (fr : Option Snapshot) (s : SysState) (acts : List Action) :
    SysState :=
  acts.foldl (step fr) s

/-- `n` concurrent `get_schedule()` calls (default `force_refresh=False`)
issued at time `t0` against cached data `d0` stamped `lu0`, none of them
scheduled yet, no refresh in flight. -/
def initState (d0 : Option Snapshot) (lu0 : Option Nat) (t0 n : Nat) :
    SysState :=
  ⟨t0, d0, lu0, false, false, 0, List.replicate n (TaskPC.entry false)⟩

/-- The state right after the first of the concurrent calls ran its entry
segment on a stale cache: it became the refresher. -/
def refresherStart (d0 : Option Snapshot) (lu0 : Option Nat) (t0 n j0 : Nat) :
    SysState :=
  ⟨t0, d0, lu0, true, false, 1,
    (List.replicate n (TaskPC.entry false)).set j0 TaskPC.fetching⟩

/-! Invariant vocabulary for the step model. -/

def noEntry (s : SysState) : Prop :=
  ∀ (i : Nat) (f : Bool), s.tasks[i]? ≠ some (TaskPC.entry f)

def uniqueFetch (s : SysState) : Prop :=
  ∀ (i j : Nat), s.tasks[i]? = some TaskPC.fetching →
    s.tasks[j]? = some TaskPC.fetching → i = j

def noFetchTask (s : SysState) : Prop :=
  ∀ (i : Nat), s.tasks[i]? ≠ some TaskPC.fetching

def noRet (s : SysState) : Prop :=
  ∀ (i : Nat) (r : Option Snapshot), s.tasks[i]? ≠ some (TaskPC.ret r)

def retsEqData (s : SysState) : Prop :=
  ∀ (i : Nat) (r : Option Snapshot), s.tasks[i]? = some (TaskPC.ret r) → r = s.data

/-- Invariant holding from the moment every call has been scheduled at
least once: the fetcher ran exactly once; no task is still at entry; at
most one task is fetching, none once the refresh finished; before the
refresh finishes no call has returned unless a waiter timed out; after it
finishes every returned value is the current data. -/
structure Inv (s : SysState) : Prop where
  count : s.fetchCount = 1
  entries : noEntry s
  uniq : uniqueFetch s
  nofetch : s.isUpdating = false → noFetchTask s
  norets : s.isUpdating = true → s.timedOut = false → noRet s
  rets : s.isUpdating = false → s.timedOut = false → retsEqData s

/-! ### Concrete data used by counterexamples and witnesses -/

/-- The P5 snapshot of the spec. -/
def p5snap : Snapshot :=
  ⟨0, sourceUrl, 1, [⟨none, none, none, some "Alatau", none, none,
    [⟨some "Mon", some "23 Oct", ["09:00", "14:00", "18:30"]⟩]⟩]⟩

/-- A snapshot with one clinic and one day at 09:00. -/
def ceSnap : Snapshot :=
  ⟨0, sourceUrl, 1, [⟨none, none, none, some "A", none, none,
    [⟨some "Mon", some "23 Oct", ["09:00"]⟩]⟩]⟩

/-- A successfully parsed page with zero clinic cards. -/
def emptySnap : Snapshot := ⟨1000, sourceUrl, 0, []⟩

/-- Cache state holding `ceSnap` fetched at second 0. -/
def stWithData : CacheState := ⟨some ceSnap, some 0, none⟩

/-- A raw card: one day without header but with a time, one day with a
header and no times. -/
def rawCard : RawClinic :=
  ⟨none, none, none, some "X", none, none,
    [⟨none, ["10:00"]⟩, ⟨some ("Mon", "23 Oct"), []⟩]⟩

/-- The snapshot `fetch_schedule` builds from `rawCard` at time 3: the
empty day is gone. -/
def rawCardSnap : Snapshot :=
  ⟨3, sourceUrl, 1, [⟨none, none, none, some "X", none, none,
    [⟨none, none, ["10:00"]⟩]⟩]⟩

/-- Schedule for the C1 counterexample: both calls enter (the first becomes
the refresher, the second a waiter), 122 ticks pass while the fetch is
still running, the waiter polls once more and times out, then the fetch
completes. -/
def ceActs : List Action :=
  [Action.run 0, Action.run 1] ++ List.replicate 122 Action.tick ++
    [Action.run 1, Action.run 0]

/-- Witness schedule: both calls enter, the fetch completes, one tick, the
waiter wakes and returns. -/
def wActs : List Action := [Action.run 0, Action.tick, Action.run 1]

/-- A waiter state: task 0 sleeps until tick 1, a refresh is in flight,
and by tick 200 the timeout bound has long passed. -/
def wState : SysState :=
  ⟨200, some ceSnap, none, true, false, 1, [TaskPC.waiting 0 1]⟩

/-! ## Theorems -/

/-! ### C10: search before any data -/

/-- Claim C10: before any successful fetch the cached snapshot is absent,
and `search_slots` returns the empty list for every combination of the
filter arguments; the function is total, so nothing is raised. -/
theorem search_no_data_empty
    (day time_from time_to clinic_name : Option String) :
    search_slots none day time_from time_to clinic_name = [] := rfl

/-! ### C5: staleness policy -/

/-- Claim C5: `is_stale` is a pure function of the last-success stamp, the
current time and the ttl, true exactly when the stamp is absent or the
elapsed time strictly exceeds the ttl; the configured ttl is 15 minutes. -/
theorem is_stale_characterization :
    (∀ (lu : Option Nat) (now ttl : Nat),
      is_stale lu now ttl = true ↔
        (lu = none ∨ ∃ t, lu = some t ∧ ttl < now - t)) ∧
    cache_duration = 15 * 60 := by
  refine ⟨fun lu now ttl => ?_, rfl⟩
  cases lu with
  | none => simp [is_stale]
  | some t => simp [is_stale]

/-! ### C8: cache age -/

/-- Claim C8 counterexample: the sentinel is not reserved for the
never-fetched state; 9999 minutes (about seven days) after a successful
fetch the same value 9999 is returned even though `_last_update` is set. -/
theorem age_minutes_sentinel_counterexample :
    get_age_minutes (some 0) 599940 = 9999 ∧ (some 0 : Option Nat) ≠ none := by
  exact ⟨rfl, by simp⟩

/-- Claim C8 (amended): `get_age_minutes` returns 9999 whenever no fetch
has succeeded, and otherwise the elapsed time in whole minutes (floor of
elapsed seconds over 60, hence within one minute of the exact elapsed
time); the value is an ordinary integer, not an error.  The converse of
the sentinel clause fails only in the coincidence shown by the
counterexample. -/
theorem age_minutes_amended :
    (∀ now : Nat, get_age_minutes none now = 9999) ∧
    (∀ t now : Nat,
      60 * get_age_minutes (some t) now ≤ now - t ∧
      now - t < 60 * (get_age_minutes (some t) now + 1)) := by
  refine ⟨fun _ => rfl, fun t now => ?_⟩
  simp only [get_age_minutes]
  omega

/-! ### C2: fetch failure keeps old state -/

/-- Claim C2 counterexample: a fetch that loads the page but parses zero
clinics returns a truthy dictionary, so `if new_data:` accepts it: with
stale old data cached, `_data` and `_last_update` are replaced, not kept. -/
theorem fetch_empty_result_counterexample :
    emptySnap.clinics = [] ∧
    (get_schedule stWithData 1000 false (some emptySnap) true).1.data
      ≠ stWithData.data ∧
    (get_schedule stWithData 1000 false (some emptySnap) true).1.lastUpdate
      ≠ stWithData.lastUpdate := by
  refine ⟨rfl, ?_, ?_⟩ <;> decide

/-- Claim C2 (amended): when the fetch produces no data (page-load timeout
or raised error, both returned as `None`), `_data` and `_last_update` are
left unchanged and the old, possibly absent, snapshot is returned; the
model is total, so no exception reaches the caller.  A successful parse
with zero clinics, however, counts as data and replaces the cache. -/
theorem fetch_failure_keeps_old
    (st : CacheState) (now : Nat) (force : Bool) (writeOk : Bool) :
    (get_schedule st now force none writeOk).1 = st ∧
    (get_schedule st now force none writeOk).2.1 = st.data := by
  by_cases h : (!force && !is_stale st.lastUpdate now cache_duration
      && st.data.isSome) = true
  · constructor <;> simp [get_schedule, h]
  · constructor <;> simp [get_schedule, h]

/-! ### C9: persistence failure is invisible -/

/-- Claim C9: for a refresh whose fetch succeeded, a failing cache-file
write (caught inside `_save_to_file`, which the model renders total)
changes nothing the caller can see: the stored snapshot, the stamp and the
returned value are identical to the successful-write run. -/
theorem save_failure_no_effect
    (st : CacheState) (now : Nat) (force : Bool) (nd : Snapshot) :
    (get_schedule st now force (some nd) false).1.data
      = (get_schedule st now force (some nd) true).1.data ∧
    (get_schedule st now force (some nd) false).1.lastUpdate
      = (get_schedule st now force (some nd) true).1.lastUpdate ∧
    (get_schedule st now force (some nd) false).2.1
      = (get_schedule st now force (some nd) true).2.1 := by
  by_cases h : (!force && !is_stale st.lastUpdate now cache_duration
      && st.data.isSome) = true
  · refine ⟨?_, ?_, ?_⟩ <;> simp [get_schedule, h]
  · refine ⟨?_, ?_, ?_⟩ <;> simp [get_schedule, h, save_to_file]

/-! ### C4: freshness short-circuit -/

/-- Claim C4: with `force_refresh` false, data present and the stamp within
ttl, `get_schedule` returns the cached snapshot with zero fetcher
invocations and unchanged state; in the interleaving model the whole call
is a single atomic segment (no suspension) that only marks the task
returned. -/
theorem fresh_cache_short_circuit
    (st : CacheState) (now : Nat) (fetchRes : Option Snapshot)
    (writeOk : Bool) (d : Snapshot)
    (h1 : st.data = some d)
    (h2 : is_stale st.lastUpdate now cache_duration = false) :
    get_schedule st now false fetchRes writeOk = (st, some d, 0) ∧
    (∀ (fr : Option Snapshot) (s : SysState) (i : Nat),
      s.tasks[i]? = some (TaskPC.entry false) →
      staleTicks s.lastUpdate s.now = false →
      s.data.isSome = true →
      step fr s (Action.run i) = setTask s i (TaskPC.ret s.data)) := by
  constructor
  · simp [get_schedule, h1, h2]
  · intro fr s i hpc hst hd
    simp [step, hpc, runTask, freshHit, hst, hd]

/-- Claim C4 witness: a cache holding `ceSnap` stamped at second 0, asked
at second 100, is fresh and served without fetching. -/
theorem fresh_cache_short_circuit_witness :
    stWithData.data = some ceSnap ∧
    is_stale stWithData.lastUpdate 100 cache_duration = false ∧
    get_schedule stWithData 100 false none true = (stWithData, some ceSnap, 0) :=
  ⟨rfl, by decide,
    (fresh_cache_short_circuit stWithData 100 none true ceSnap rfl
      (by decide)).1⟩

/-! ### C3: the query algorithm -/

/-- A needle with empty character data is a substring of everything. -/
theorem subChars_nil (l : List Char) : subChars [] l = true := by
  cases l <;> simp [subChars, List.isPrefixOf]

/-- A falsy argument normalises to `none`. -/
theorem normArg_eq_none (o : Option String) (h : truthy o = false) :
    normArg o = none := by
  cases o with
  | none => rfl
  | some s =>
    simp only [truthy, Bool.not_eq_false'] at h
    simp [normArg, h]

/-- The clinic-level guard of the source equals the spec guard over the
normalised argument. -/
theorem clinicGuard_eq (cn : Option String) (nm : String) :
    (truthy cn && !strInCI (cn.getD "") nm)
      = (match normArg cn with
         | none => false
         | some s => !strInCI s nm) := by
  cases cn with
  | none => rfl
  | some s =>
    cases h : s.data.isEmpty with
    | false => simp [truthy, normArg, h]
    | true => simp [truthy, normArg, h]

/-- The day-level guard of the source equals the spec guard over the
normalised argument. -/
theorem dayGuard_eq (day : Option String) (a b : String) :
    (truthy day && !strInCI (day.getD "") a && !strInCI (day.getD "") b)
      = (match normArg day with
         | none => false
         | some s => !(strInCI s a || strInCI s b)) := by
  cases day with
  | none => rfl
  | some s =>
    cases h : s.data.isEmpty with
    | false =>
      simp [truthy, normArg, h, Bool.not_or, Bool.and_assoc]
    | true => simp [truthy, normArg, h]

/-- The source time filter equals the spec time filter over normalised
arguments. -/
theorem filteredTimes_eq (tf tt : Option String) (l : List String) :
    filteredTimes tf tt l = specTimes (normArg tf) (normArg tt) l := by
  have hpt : ∀ t, (!truthy tf || strLe (tf.getD "") t)
      = (match normArg tf with | none => true | some f => strLe f t) := by
    intro t
    cases tf with
    | none => rfl
    | some s =>
      cases h : s.data.isEmpty with
      | false => simp [truthy, normArg, h]
      | true => simp [truthy, normArg, h]
  have hpu : ∀ t, (!truthy tt || strLe t (tt.getD ""))
      = (match normArg tt with | none => true | some u => strLe t u) := by
    intro t
    cases tt with
    | none => rfl
    | some s =>
      cases h : s.data.isEmpty with
      | false => simp [truthy, normArg, h]
      | true => simp [truthy, normArg, h]
  unfold filteredTimes specTimes
  cases hb : (truthy tf || truthy tt) with
  | false =>
    rw [Bool.or_eq_false_iff] at hb
    rw [normArg_eq_none tf hb.1, normArg_eq_none tt hb.2]
    simp
  | true =>
    simp only [hb, if_pos]
    exact List.filter_congr fun t _ => by rw [hpt, hpu]

/-- Claim C3 counterexample: with `time_to` the empty string the source
applies no upper bound (an empty string is falsy) while the spec algorithm
as claimed keeps only times `t <= ""`; on `ceSnap` the source returns the
09:00 slot and the spec algorithm returns nothing. -/
theorem search_empty_timeto_counterexample :
    search_slots (some ceSnap) none none (some "") none
      ≠ searchSpec (some ceSnap) none none (some "") none := by decide

/-- Claim C3 (amended): after normalising empty-string filters to absent
(Python treats them as falsy, so the source skips the corresponding
checks), `search_slots` returns exactly the matched slots of the spec
algorithm, in snapshot order; and on the P5 snapshot the reference query
returns exactly one slot with times ["14:00"]. -/
theorem search_slots_spec_amended :
    (∀ (data : Option Snapshot)
       (day time_from time_to clinic_name : Option String),
      search_slots data day time_from time_to clinic_name
        = searchSpec data (normArg day) (normArg time_from)
            (normArg time_to) (normArg clinic_name)) ∧
    search_slots (some p5snap) none (some "10:00") (some "18:00")
        (some "alatau")
      = [⟨some "Alatau", none, none, none, none, some "Mon", some "23 Oct",
          ["14:00"]⟩] := by
  constructor
  · intro data day tf tt cn
    cases data with
    | none => rfl
    | some snap =>
      simp only [search_slots, searchSpec]
      refine congrArg _ (funext fun clinic => ?_)
      rw [clinicGuard_eq cn (clinic.clinic_name.getD "")]
      cases hc : (match normArg cn with
                  | none => false
                  | some s => !strInCI s (clinic.clinic_name.getD "")) with
      | true => simp [hc]
      | false =>
        simp only [hc, Bool.false_eq_true, if_false]
        refine congrArg _ (funext fun ds => ?_)
        rw [dayGuard_eq day (ds.day.getD "") (ds.date.getD "")]
        cases hd : (match normArg day with
                    | none => false
                    | some s => !(strInCI s (ds.day.getD "")
                                  || strInCI s (ds.date.getD ""))) with
        | true => simp [hd]
        | false =>
          simp only [hd, Bool.false_eq_true, if_false]
          rw [filteredTimes_eq]
  · decide

/-! ### C6: no empty day entries -/

/-- Every snapshot the fetch builds keeps only days with nonempty times. -/
theorem fetch_daysNonempty (now : Nat)
    (page : Option (List (Option RawClinic))) (snap : Snapshot)
    (h : fetch_schedule now page = some snap) : daysNonempty snap := by
  cases page with
  | none => exact absurd h (by simp [fetch_schedule])
  | some cards =>
    simp only [fetch_schedule, Option.some.injEq] at h
    intro c hc d hd
    rw [← h] at hc
    simp only [List.mem_filterMap] at hc
    obtain ⟨card, hcard, hmap⟩ := hc
    cases card with
    | none => exact absurd hmap (by simp)
    | some rc =>
      simp only [Option.map_some', Option.some.injEq] at hmap
      rw [← hmap] at hd
      simp only [buildClinic, List.mem_filter] at hd
      intro hnil
      rw [hnil] at hd
      exact absurd hd.2 (by decide)

/-- Claim C6: the fetch drops every day whose extracted times list is
empty, so any snapshot it returns satisfies `daysNonempty`; and since
`get_schedule` only ever stores fetch results, a cache whose data
satisfies the invariant still satisfies it after any call, whatever the
fetch outcome — no stored snapshot, hence no snapshot visible to search,
contains an empty day entry. -/
theorem stored_days_nonempty :
    (∀ (now : Nat) (page : Option (List (Option RawClinic))) (snap : Snapshot),
      fetch_schedule now page = some snap → daysNonempty snap) ∧
    (∀ (st : CacheState) (now nowF : Nat) (force : Bool)
       (page : Option (List (Option RawClinic))) (writeOk : Bool),
      (∀ snap, st.data = some snap → daysNonempty snap) →
      ∀ snap,
        (get_schedule st now force (fetch_schedule nowF page) writeOk).1.data
          = some snap → daysNonempty snap) := by
  refine ⟨fetch_daysNonempty, ?_⟩
  intro st now nowF force page writeOk hinv snap hdata
  by_cases h : (!force && !is_stale st.lastUpdate now cache_duration
      && st.data.isSome) = true
  · simp [get_schedule, h] at hdata
    exact hinv snap hdata
  · simp only [get_schedule, h, Bool.false_eq_true, if_false] at hdata
    cases hf : fetch_schedule nowF page with
    | none =>
      rw [hf] at hdata
      exact hinv snap hdata
    | some nd =>
      rw [hf] at hdata
      simp only [Option.some.injEq] at hdata
      rw [← hdata]
      exact fetch_daysNonempty nowF page nd hf

/-- Claim C6 witness: the page with the single card `rawCard`, one of whose
day blocks has no times, yields exactly `rawCardSnap`, which has no empty
day entry. -/
theorem stored_days_nonempty_witness :
    fetch_schedule 3 (some [some rawCard]) = some rawCardSnap ∧
    daysNonempty rawCardSnap :=
  ⟨rfl, stored_days_nonempty.1 3 (some [some rawCard]) rawCardSnap rfl⟩

/-! ### C7: bounded wait -/

/-- The wait loop exits after at most `2 * tmo + 2` polls: once `k / 2`
exceeds `tmo` the timeout branch fires. -/
theorem waitGo_le (upd : Nat → Bool) (tmo : Nat) :
    ∀ f k : Nat, 2 * tmo + 3 ≤ k + f → k ≤ 2 * tmo + 2 →
      waitGo upd tmo f k ≤ 2 * tmo + 2 := by
  intro f
  induction f with
  | zero => intro k h1 h2; omega
  | succ f ih =>
    intro k h1 h2
    unfold waitGo
    split
    · exact h2
    · split
      · exact h2
      · rename_i hto
        simp only [gt_iff_lt, not_lt] at hto
        exact ih (k + 1) (by omega) (by omega)

/-- Claim C7 counterexample: against a refresh that never completes, the
waiter makes 122 polls of half a second — 61 seconds — before giving up,
exceeding the claimed bound of the 60-second timeout plus one poll
interval (121 polls), because the loop compares the whole-second floor of
the elapsed time with 60. -/
theorem wait_timeout_bound_counterexample :
    waitPolls (fun _ => true) 60 = 122 ∧
    ¬ waitPolls (fun _ => true) 60 ≤ 121 := by
  constructor <;> decide

/-- Claim C7 (amended): a waiter polls at most `2 * tmo + 2` times (122
polls, 61 seconds, for the reference timeout of 60 — the timeout plus two
poll intervals, one more than claimed); in the interleaving model a
waiter step never invokes the fetcher and never changes the cached data,
and once the bound has passed a scheduled waiter immediately returns
whatever snapshot is current, not an error. -/
theorem wait_timeout_amended :
    (∀ (upd : Nat → Bool) (tmo : Nat), waitPolls upd tmo ≤ 2 * tmo + 2) ∧
    (∀ upd : Nat → Bool, waitPolls upd 60 ≤ 122) ∧
    (∀ (fr : Option Snapshot) (s : SysState) (i startT wakeT : Nat),
      s.tasks[i]? = some (TaskPC.waiting startT wakeT) →
      (step fr s (Action.run i)).fetchCount = s.fetchCount ∧
      (step fr s (Action.run i)).data = s.data) ∧
    (∀ (fr : Option Snapshot) (s : SysState) (i startT wakeT : Nat),
      s.tasks[i]? = some (TaskPC.waiting startT wakeT) →
      wakeT ≤ s.now → s.isUpdating = true → (s.now - startT) / 2 > 60 →
      (step fr s (Action.run i)).tasks[i]? = some (TaskPC.ret s.data)) := by
  refine ⟨?_, ?_, ?_, ?_⟩
  · intro upd tmo
    exact waitGo_le upd tmo (2 * tmo + 3) 0 (by omega) (by omega)
  · intro upd
    exact waitGo_le upd 60 123 0 (by omega) (by omega)
  · intro fr s i startT wakeT hpc
    simp only [step, hpc, runTask]
    split
    · exact ⟨rfl, rfl⟩
    · split
      · exact ⟨rfl, rfl⟩
      · split
        · exact ⟨rfl, rfl⟩
        · exact ⟨rfl, rfl⟩
  · intro fr s i startT wakeT hpc hwake hupd hto
    have hlt : i < s.tasks.length := (List.getElem?_eq_some.mp hpc).1
    simp only [step, hpc, runTask]
    rw [if_neg (by omega), if_neg (by simp [hupd]), if_pos hto]
    exact List.getElem?_set_self hlt

/-- Claim C7 witness: in `wState` the waiter is long past the bound; one
step returns it with the current snapshot. -/
theorem wait_timeout_amended_witness :
    wState.tasks[0]? = some (TaskPC.waiting 0 1) ∧
    (step none wState (Action.run 0)).tasks[0]?
      = some (TaskPC.ret wState.data) :=
  ⟨rfl, wait_timeout_amended.2.2.2 none wState 0 0 1 rfl (by decide) rfl
    (by decide)⟩

/-! ### C1: single flight -/

/-- Reading an index of a list after `set`: either it is the set index (and
the set took effect, the index being in range whenever the read returns
something), or the list is unchanged there. -/
theorem getElem?_set_cases {α : Type} {l : List α} {i j : Nat} {a b : α}
    (h : (l.set i a)[j]? = some b) :
    (i = j ∧ b = a) ∨ (i ≠ j ∧ l[j]? = some b) := by
  by_cases hij : i = j
  · subst hij
    by_cases hlen : i < l.length
    · rw [List.getElem?_set_self hlen] at h
      exact Or.inl ⟨rfl, (Option.some.injEq _ _).mp h.symm⟩
    · rw [List.getElem?_eq_none (by rw [List.length_set]; omega)] at h
      exact absurd h (by simp)
  · exact Or.inr ⟨hij, by rwa [List.getElem?_set_ne hij] at h⟩

/-- The invariant `Inv` is preserved by every action. -/
theorem inv_step (fr : Option Snapshot) (s : SysState) (a : Action)
    (h : Inv s) : Inv (step fr s a) := by
  cases a with
  | tick => exact ⟨h.count, h.entries, h.uniq, h.nofetch, h.norets, h.rets⟩
  | run i =>
    cases hpc : s.tasks[i]? with
    | none => simpa [step, hpc] using h
    | some pc =>
      cases pc with
      | entry f => exact absurd hpc (h.entries i f)
      | ret r =>
        simp only [step, hpc, runTask]
        exact h
      | fetching =>
        cases hu : s.isUpdating with
        | false => exact absurd hpc (h.nofetch hu i)
        | true =>
          simp only [step, hpc, runTask]
          cases fr with
          | some nd =>
            refine ⟨h.count, ?_, ?_, ?_, ?_, ?_⟩
            · intro j f hj
              rcases getElem?_set_cases hj with ⟨_, heq⟩ | ⟨_, hold⟩
              · exact absurd heq (by simp)
              · exact h.entries j f hold
            · intro j k hj hk
              rcases getElem?_set_cases hj with ⟨_, heq⟩ | ⟨_, holdj⟩
              · exact absurd heq (by simp)
              · rcases getElem?_set_cases hk with ⟨_, heq⟩ | ⟨_, holdk⟩
                · exact absurd heq (by simp)
                · exact h.uniq j k holdj holdk
            · intro _ j hj
              rcases getElem?_set_cases hj with ⟨_, heq⟩ | ⟨hne, hold⟩
              · exact absurd heq (by simp)
              · exact hne (h.uniq j i hold hpc).symm
            · intro hfalse
              exact absurd hfalse (by simp)
            · intro _ hTO j r hj
              rcases getElem?_set_cases hj with ⟨_, heq⟩ | ⟨_, hold⟩
              · simpa using heq
              · exact absurd hold (h.norets hu hTO j r)
          | none =>
            refine ⟨h.count, ?_, ?_, ?_, ?_, ?_⟩
            · intro j f hj
              rcases getElem?_set_cases hj with ⟨_, heq⟩ | ⟨_, hold⟩
              · exact absurd heq (by simp)
              · exact h.entries j f hold
            · intro j k hj hk
              rcases getElem?_set_cases hj with ⟨_, heq⟩ | ⟨_, holdj⟩
              · exact absurd heq (by simp)
              · rcases getElem?_set_cases hk with ⟨_, heq⟩ | ⟨_, holdk⟩
                · exact absurd heq (by simp)
                · exact h.uniq j k holdj holdk
            · intro _ j hj
              rcases getElem?_set_cases hj with ⟨_, heq⟩ | ⟨hne, hold⟩
              · exact absurd heq (by simp)
              · exact hne (h.uniq j i hold hpc).symm
            · intro hfalse
              exact absurd hfalse (by simp)
            · intro _ hTO j r hj
              rcases getElem?_set_cases hj with ⟨_, heq⟩ | ⟨_, hold⟩
              · simpa using heq
              · exact absurd hold (h.norets hu hTO j r)
      | waiting startT wakeT =>
        simp only [step, hpc, runTask]
        split
        · exact h
        · split
          · rename_i hnu
            have hu : s.isUpdating = false := by simpa using hnu
            refine ⟨h.count, ?_, ?_, ?_, ?_, ?_⟩
            · intro j f hj
              rcases getElem?_set_cases hj with ⟨_, heq⟩ | ⟨_, hold⟩
              · exact absurd heq (by simp)
              · exact h.entries j f hold
            · intro j k hj hk
              rcases getElem?_set_cases hj with ⟨_, heq⟩ | ⟨_, holdj⟩
              · exact absurd heq (by simp)
              · rcases getElem?_set_cases hk with ⟨_, heq⟩ | ⟨_, holdk⟩
                · exact absurd heq (by simp)
                · exact h.uniq j k holdj holdk
            · intro _ j hj
              rcases getElem?_set_cases hj with ⟨_, heq⟩ | ⟨_, hold⟩
              · exact absurd heq (by simp)
              · exact h.nofetch hu j hold
            · intro hfalse
              rw [show (setTask s i (TaskPC.ret s.data)).isUpdating
                = s.isUpdating from rfl, hu] at hfalse
              exact absurd hfalse (by simp)
            · intro _ hTO j r hj
              rcases getElem?_set_cases hj with ⟨_, heq⟩ | ⟨_, hold⟩
              · simpa using heq
              · exact h.rets hu hTO j r hold
          · split
            · rename_i hnu hto
              have hu : s.isUpdating = true := by simpa using hnu
              refine ⟨h.count, ?_, ?_, ?_, ?_, ?_⟩
              · intro j f hj
                rcases getElem?_set_cases hj with ⟨_, heq⟩ | ⟨_, hold⟩
                · exact absurd heq (by simp)
                · exact h.entries j f hold
              · intro j k hj hk
                rcases getElem?_set_cases hj with ⟨_, heq⟩ | ⟨_, holdj⟩
                · exact absurd heq (by simp)
                · rcases getElem?_set_cases hk with ⟨_, heq⟩ | ⟨_, holdk⟩
                  · exact absurd heq (by simp)
                  · exact h.uniq j k holdj holdk
              · intro hfalse
                rw [hu] at hfalse
                exact absurd hfalse (by simp)
              · intro _ hTO
                exact absurd hTO (by simp)
              · intro _ hTO
                exact absurd hTO (by simp)
            · refine ⟨h.count, ?_, ?_, ?_, ?_, ?_⟩
              · intro j f hj
                rcases getElem?_set_cases hj with ⟨_, heq⟩ | ⟨_, hold⟩
                · exact absurd heq (by simp)
                · exact h.entries j f hold
              · intro j k hj hk
                rcases getElem?_set_cases hj with ⟨_, heq⟩ | ⟨_, holdj⟩
                · exact absurd heq (by simp)
                · rcases getElem?_set_cases hk with ⟨_, heq⟩ | ⟨_, holdk⟩
                  · exact absurd heq (by simp)
                  · exact h.uniq j k holdj holdk
              · intro hquiet j hj
                rcases getElem?_set_cases hj with ⟨_, heq⟩ | ⟨_, hold⟩
                · exact absurd heq (by simp)
                · exact h.nofetch hquiet j hold
              · intro hup hTO j r hj
                rcases getElem?_set_cases hj with ⟨_, heq⟩ | ⟨_, hold⟩
                · exact absurd heq (by simp)
                · exact h.norets hup hTO j r hold
              · intro hquiet hTO j r hj
                rcases getElem?_set_cases hj with ⟨_, heq⟩ | ⟨_, hold⟩
                · exact absurd heq (by simp)
                · exact h.rets hquiet hTO j r hold

theorem runActs_cons (fr : Option Snapshot) (s : SysState) (a : Action)
    (as : List Action) :
    runActs fr s (a :: as) = runActs fr (step fr s a) as := rfl

/-- The invariant is preserved by every schedule. -/
theorem inv_run (fr : Option Snapshot) (acts : List Action) :
    ∀ s : SysState, Inv s → Inv (runActs fr s acts) := by
  induction acts with
  | nil => intro s h; exact h
  | cons a as ih => intro s h; exact ih _ (inv_step fr s a h)

/-- A value read from a replicate list is the replicated value. -/
theorem getElem?_replicate_entry {n i : Nat} {pc : TaskPC}
    (h : (List.replicate n (TaskPC.entry false))[i]? = some pc) :
    pc = TaskPC.entry false ∧ i < n := by
  have hlen : i < n := by
    have := (List.getElem?_eq_some.mp h).1
    simpa using this
  rw [List.getElem?_replicate_of_lt hlen] at h
  exact ⟨((Option.some.injEq _ _).mp h).symm, hlen⟩

/-- While the fetch started by the first caller is in flight, running the
remaining entry segments sends every other caller into the wait loop:
afterwards no task is still at entry, the fetch count is still one, no
call has returned and the refresher is still the only fetching task. -/
theorem phase2 (fr : Option Snapshot) :
    ∀ (pre : List Nat) (s : SysState),
      pre.Nodup →
      s.isUpdating = true → s.timedOut = false → s.fetchCount = 1 →
      staleTicks s.lastUpdate s.now = true →
      uniqueFetch s → noRet s →
      (∀ i ∈ pre, s.tasks[i]? = some (TaskPC.entry false)) →
      (∀ (i : Nat) (f : Bool),
        s.tasks[i]? = some (TaskPC.entry f) → f = false ∧ i ∈ pre) →
      (runActs fr s (pre.map Action.run)).isUpdating = true ∧
      (runActs fr s (pre.map Action.run)).timedOut = false ∧
      (runActs fr s (pre.map Action.run)).fetchCount = 1 ∧
      uniqueFetch (runActs fr s (pre.map Action.run)) ∧
      noRet (runActs fr s (pre.map Action.run)) ∧
      noEntry (runActs fr s (pre.map Action.run)) := by
  intro pre
  induction pre with
  | nil =>
    intro s _ h1 h2 h3 _ h5 h6 _ hchar
    refine ⟨h1, h2, h3, h5, h6, ?_⟩
    intro i f hi
    exact List.not_mem_nil i ((hchar i f hi).2)
  | cons i0 rest ih =>
    intro s hnd hu hTO hfc hst huniq hnoret hmem hchar
    have hpc0 : s.tasks[i0]? = some (TaskPC.entry false) :=
      hmem i0 (List.mem_cons_self i0 rest)
    have hstep : step fr s (Action.run i0)
        = setTask s i0 (TaskPC.waiting s.now (s.now + 1)) := by
      simp [step, hpc0, runTask, freshHit, hst, hu]
    rw [List.map_cons, runActs_cons, hstep]
    have hni0 : i0 ∉ rest := (List.nodup_cons.mp hnd).1
    apply ih (setTask s i0 (TaskPC.waiting s.now (s.now + 1)))
      ((List.nodup_cons.mp hnd).2) hu hTO hfc hst
    · intro j k hj hk
      rcases getElem?_set_cases hj with ⟨_, heq⟩ | ⟨_, holdj⟩
      · exact absurd heq (by simp)
      · rcases getElem?_set_cases hk with ⟨_, heq⟩ | ⟨_, holdk⟩
        · exact absurd heq (by simp)
        · exact huniq j k holdj holdk
    · intro j r hj
      rcases getElem?_set_cases hj with ⟨_, heq⟩ | ⟨_, hold⟩
      · exact absurd heq (by simp)
      · exact hnoret j r hold
    · intro j hj
      have hji0 : i0 ≠ j := fun hj0 => hni0 (hj0 ▸ hj)
      rw [show (setTask s i0 (TaskPC.waiting s.now (s.now + 1))).tasks
        = s.tasks.set i0 (TaskPC.waiting s.now (s.now + 1)) from rfl,
        List.getElem?_set_ne hji0]
      exact hmem j (List.mem_cons_of_mem i0 hj)
    · intro j f hj
      rcases getElem?_set_cases hj with ⟨_, heq⟩ | ⟨hne, hold⟩
      · exact absurd heq (by simp)
      · obtain ⟨hf, hjmem⟩ := hchar j f hold
        refine ⟨hf, ?_⟩
        rcases List.mem_cons.mp hjmem with hji | hjr
        · exact absurd hji.symm hne
        · exact hjr

set_option maxRecDepth 4000 in
/-- Claim C1 counterexample: two concurrent calls issued on a stale, empty
cache with no refresh in flight; the fetch takes longer than the wait
bound, so the waiter times out and returns the old absent snapshot while
the refresher returns the newly fetched one — the fetcher ran exactly
once, but the two calls return different snapshot values. -/
theorem single_flight_timeout_counterexample :
    (runActs (some emptySnap) (initState none none 0 2) ceActs).fetchCount
      = 1 ∧
    (runActs (some emptySnap) (initState none none 0 2) ceActs).tasks[0]?
      = some (TaskPC.ret (some emptySnap)) ∧
    (runActs (some emptySnap) (initState none none 0 2) ceActs).tasks[1]?
      = some (TaskPC.ret none) ∧
    some emptySnap ≠ (none : Option Snapshot) := by
  refine ⟨?_, ?_, ?_, ?_⟩ <;> decide

/-- Claim C1 (amended): for `n` concurrent `get_schedule()` calls issued
while the cache is stale and no refresh is in flight — each call taking
its entry step before the fetch completes, as the event loop schedules
ready tasks before the fetch callback — the fetcher is invoked exactly
once under every subsequent schedule; and unless some waiter hit the
60-second wait timeout, any two calls that have returned returned the
same snapshot value.  (A timed-out waiter may return the older snapshot,
as the counterexample shows.) -/
theorem single_flight_amended
    (fr d0 : Option Snapshot) (lu0 : Option Nat) (t0 n : Nat)
    (pre : List Nat) (rest : List Action)
    (hn : 0 < n) (hstale : staleTicks lu0 t0 = true)
    (hnd : pre.Nodup) (hran : ∀ i ∈ pre, i < n)
    (hcov : ∀ i : Nat, i < n → i ∈ pre) :
    (runActs fr (runActs fr (initState d0 lu0 t0 n) (pre.map Action.run))
        rest).fetchCount = 1 ∧
    ((runActs fr (runActs fr (initState d0 lu0 t0 n) (pre.map Action.run))
        rest).timedOut = false →
      ∀ (i j : Nat) (r rr : Option Snapshot),
        (runActs fr (runActs fr (initState d0 lu0 t0 n)
            (pre.map Action.run)) rest).tasks[i]? = some (TaskPC.ret r) →
        (runActs fr (runActs fr (initState d0 lu0 t0 n)
            (pre.map Action.run)) rest).tasks[j]? = some (TaskPC.ret rr) →
        r = rr) := by
  cases pre with
  | nil => exact absurd (hcov 0 hn) (List.not_mem_nil 0)
  | cons j0 rest2 =>
    have hj0n : j0 < n := hran j0 (List.mem_cons_self _ _)
    have hpc0 : (initState d0 lu0 t0 n).tasks[j0]?
        = some (TaskPC.entry false) := by
      show (List.replicate n (TaskPC.entry false))[j0]? = _
      rw [List.getElem?_replicate_of_lt hj0n]
    have hpc1 : (List.replicate n (TaskPC.entry false))[j0]?
        = some (TaskPC.entry false) := List.getElem?_replicate_of_lt hj0n
    have hstep : step fr (initState d0 lu0 t0 n) (Action.run j0)
        = refresherStart d0 lu0 t0 n j0 := by
      simp [step, initState, hpc1, runTask, freshHit, hstale, refresherStart]
    have hmid := phase2 fr rest2 (refresherStart d0 lu0 t0 n j0)
      ((List.nodup_cons.mp hnd).2) rfl rfl rfl hstale
      (by
        intro i j hi hj
        rcases getElem?_set_cases hi with ⟨hji, _⟩ | ⟨_, holdi⟩
        · rcases getElem?_set_cases hj with ⟨hjj, _⟩ | ⟨_, holdj⟩
          · rw [← hji, ← hjj]
          · exact absurd (getElem?_replicate_entry holdj).1 (by simp)
        · exact absurd (getElem?_replicate_entry holdi).1 (by simp))
      (by
        intro i r hi
        rcases getElem?_set_cases hi with ⟨_, heq⟩ | ⟨_, hold⟩
        · exact absurd heq (by simp)
        · exact absurd (getElem?_replicate_entry hold).1 (by simp))
      (by
        intro i hi
        have hi0 : j0 ≠ i :=
          fun hji => (List.nodup_cons.mp hnd).1 (hji ▸ hi)
        show ((List.replicate n (TaskPC.entry false)).set j0
          TaskPC.fetching)[i]? = _
        rw [List.getElem?_set_ne hi0]
        exact List.getElem?_replicate_of_lt
          (hran i (List.mem_cons_of_mem j0 hi))
      )
      (by
        intro i f hi
        rcases getElem?_set_cases hi with ⟨_, heq⟩ | ⟨hne, hold⟩
        · exact absurd heq (by simp)
        · obtain ⟨hval, hlt⟩ := getElem?_replicate_entry hold
          have hf : f = false := by
            have := hval
            simp only [TaskPC.entry.injEq] at this
            exact this
          refine ⟨hf, ?_⟩
          rcases List.mem_cons.mp (hcov i hlt) with hji | hir
          · exact absurd hji.symm hne
          · exact hir)
    obtain ⟨m1, m2, m3, m4, m5, m6⟩ := hmid
    have hinvMid :
        Inv (runActs fr (refresherStart d0 lu0 t0 n j0)
          (rest2.map Action.run)) := by
      refine ⟨m3, m6, m4, ?_, fun _ _ => m5, ?_⟩
      · intro hfalse
        rw [m1] at hfalse
        exact absurd hfalse (by simp)
      · intro hfalse _
        rw [m1] at hfalse
        exact absurd hfalse (by simp)
    have hinvFin := inv_run fr rest _ hinvMid
    have hrw : runActs fr (initState d0 lu0 t0 n)
          ((j0 :: rest2).map Action.run)
        = runActs fr (refresherStart d0 lu0 t0 n j0)
            (rest2.map Action.run) := by
      rw [List.map_cons, runActs_cons, hstep]
    rw [hrw]
    refine ⟨hinvFin.count, ?_⟩
    intro hTO i j r rr hi hj
    cases hfin : (runActs fr (runActs fr (refresherStart d0 lu0 t0 n j0)
        (rest2.map Action.run)) rest).isUpdating with
    | true => exact absurd hi (hinvFin.norets hfin hTO i r)
    | false =>
      rw [hinvFin.rets hfin hTO i r hi, hinvFin.rets hfin hTO j rr hj]

/-- Claim C1 witness: two concurrent calls on a stale empty cache, both
entering before the fetch completes; the fetch then succeeds, one tick
passes and the waiter wakes: the fetcher ran once and the scenario
hypotheses all hold. -/
theorem single_flight_amended_witness :
    (0 < 2 ∧ staleTicks none 0 = true ∧ ([0, 1] : List Nat).Nodup ∧
      (∀ i ∈ ([0, 1] : List Nat), i < 2) ∧
      (∀ i : Nat, i < 2 → i ∈ ([0, 1] : List Nat))) ∧
    (runActs (some emptySnap)
        (runActs (some emptySnap) (initState none none 0 2)
          ([0, 1].map Action.run)) wActs).fetchCount = 1 :=
  ⟨by refine ⟨by decide, rfl, by decide, by decide, by decide⟩,
   (single_flight_amended (some emptySnap) none none 0 2 [0, 1] wActs
      (by decide) rfl (by decide) (by decide) (by decide)).1⟩

end ScheduleCache
